import Mathlib

/-!
Verification development for the Eco-BinGo route-optimization core
(`src/backend.py`): the Haversine distance model (`calculate_distance`),
the greedy nearest-neighbor route solver (`optimize_route_tsp`), and the
route evaluator endpoint (`optimize_route`) with its randomized baseline
and derived fuel/cost metrics.

The Python floats are modelled as real numbers; `math.atan2` is embedded
with its standard sign convention; `random.shuffle` is modelled by an
arbitrary function parameter (claims quantify over permutations);
Python `round` (half-to-even) is modelled by `round_half_even`.
-/

open Real

/-- Embedding of `math.radians`: degrees to radians. -/
noncomputable def radians (x : ℝ) : ℝ := x * (Real.pi / 180)

/-- Embedding of `math.atan2 y x` with the standard C/Python sign convention. -/
noncomputable def atan2 (y x : ℝ) : ℝ :=
  if 0 < x then Real.arctan (y / x)
  else if x < 0 then
    (if 0 ≤ y then Real.arctan (y / x) + Real.pi else Real.arctan (y / x) - Real.pi)
  else
    (if 0 < y then Real.pi / 2 else if y < 0 then -(Real.pi / 2) else 0)

/-- The intermediate value `a` of `calculate_distance` in `src/backend.py`
(lines 169-170): `sin(dlat/2)**2 + cos(lat1)*cos(lat2)*sin(dlon/2)**2`
after the four inputs have been converted to radians. -/
noncomputable def haversine_a (lat1 lon1 lat2 lon2 : ℝ) : ℝ :=
  Real.sin ((radians lat2 - radians lat1) / 2) ^ 2 +
    Real.cos (radians lat1) * Real.cos (radians lat2) *
      Real.sin ((radians lon2 - radians lon1) / 2) ^ 2

/-- Embedding of `calculate_distance` (`src/backend.py` lines 157-174):
Haversine distance in kilometers, `R * c` with `R = 6371.0` and
`c = 2 * atan2(sqrt(a), sqrt(1 - a))`. -/
noncomputable def calculate_distance (lat1 lon1 lat2 lon2 : ℝ) : ℝ :=
  6371.0 * (2 * atan2 (Real.sqrt (haversine_a lat1 lon1 lat2 lon2))
    (Real.sqrt (1 - haversine_a lat1 lon1 lat2 lon2)))

/-- A bin record as passed to the route optimizer: the dictionary
`{"id": ..., "name": ..., "lat": ..., "lon": ..., "fill": ...}` built in
`optimize_route` (`src/backend.py` line 488). -/
structure Bin where
  id : String
  name : String
  lat : ℝ
  lon : ℝ
  fill : ℝ

noncomputable instance : DecidableEq Bin := Classical.decEq Bin

/-- Distance from a current position (a lat/lon pair, as the truck dict or a
previously visited bin) to a bin, as computed in the solver loop. -/
noncomputable def dPos (p : ℝ × ℝ) (b : Bin) : ℝ :=
  calculate_distance p.1 p.2 b.lat b.lon

/-- Distance between two bins. -/
noncomputable def dBins (x y : Bin) : ℝ :=
  calculate_distance x.lat x.lon y.lat y.lon

/-- Embedding of `min(remaining, key=lambda b: calculate_distance(...))`
(`src/backend.py` lines 198-203) on the nonempty list `b :: rest`:
a left scan that replaces the current best only on a strictly smaller key,
hence returns the first element attaining the minimum. -/
noncomputable def selectNearest (p : ℝ × ℝ) (b : Bin) (rest : List Bin) : Bin :=
  rest.foldl (fun best x => if dPos p x < dPos p best then x else best) b

lemma selectNearest_mem (p : ℝ × ℝ) (b : Bin) (rest : List Bin) :
    selectNearest p b rest ∈ b :: rest := by
  induction rest generalizing b with
  | nil => simp [selectNearest]
  | cons x rs ih =>
    have hstep : selectNearest p b (x :: rs) =
        selectNearest p (if dPos p x < dPos p b then x else b) rs := by
      simp [selectNearest, List.foldl_cons]
    rw [hstep]
    have h := ih (if dPos p x < dPos p b then x else b)
    rcases List.mem_cons.mp h with h1 | h1
    · rw [h1]
      split <;> simp
    · simp [h1]

/-- Embedding of the `while remaining:` loop of `optimize_route_tsp`
(`src/backend.py` lines 196-214): pick the nearest remaining bin, accumulate
the leg distance, remove the bin (Python `list.remove`: first occurrence equal
to the chosen value), move to it.  The empty case also covers the
`if not bins: return [], 0.0` guard. -/
noncomputable def nnLoop : List Bin → ℝ × ℝ → List Bin × ℝ
  | [], _ => ([], 0)
  | b :: rest, p =>
    let nearest := selectNearest p b rest
    let tail := nnLoop ((b :: rest).erase nearest) (nearest.lat, nearest.lon)
    (nearest :: tail.1, dPos p nearest + tail.2)
termination_by l _ => l.length
decreasing_by
  rw [List.length_erase_of_mem (selectNearest_mem p b rest)]
  simp

lemma nnLoop_nil (p : ℝ × ℝ) : nnLoop [] p = ([], 0) := by
  rw [nnLoop]

lemma nnLoop_cons (p : ℝ × ℝ) (b : Bin) (rest : List Bin) :
    nnLoop (b :: rest) p =
      (selectNearest p b rest ::
        (nnLoop ((b :: rest).erase (selectNearest p b rest))
          ((selectNearest p b rest).lat, (selectNearest p b rest).lon)).1,
       dPos p (selectNearest p b rest) +
        (nnLoop ((b :: rest).erase (selectNearest p b rest))
          ((selectNearest p b rest).lat, (selectNearest p b rest).lon)).2) := by
  rw [nnLoop]

/-- Embedding of `optimize_route_tsp` (`src/backend.py` lines 177-216). -/
noncomputable def optimize_route_tsp (truck_pos : ℝ × ℝ) (bins : List Bin) :
    List Bin × ℝ :=
  nnLoop bins truck_pos

/-- Reference selection from the spec (section 4.2, step 2): select the
waypoint in the remaining pool with minimum distance from the current
position, taking the first such waypoint in iteration order on ties. -/
noncomputable def specSelect (p : ℝ × ℝ) : Bin → List Bin → Bin
  | b, [] => b
  | b, x :: rest =>
    if dPos p x < dPos p b then specSelect p x rest else specSelect p b rest

lemma specSelect_mem (p : ℝ × ℝ) (b : Bin) (rest : List Bin) :
    specSelect p b rest ∈ b :: rest := by
  induction rest generalizing b with
  | nil => simp [specSelect]
  | cons x rs ih =>
    rw [specSelect]
    split
    · rcases List.mem_cons.mp (ih x) with h | h <;> simp [h]
    · rcases List.mem_cons.mp (ih b) with h | h <;> simp [h]

lemma selectNearest_eq_specSelect (p : ℝ × ℝ) (b : Bin) (rest : List Bin) :
    selectNearest p b rest = specSelect p b rest := by
  induction rest generalizing b with
  | nil => rfl
  | cons x rs ih =>
    have hstep : selectNearest p b (x :: rs) =
        selectNearest p (if dPos p x < dPos p b then x else b) rs := by
      simp [selectNearest, List.foldl_cons]
    rw [hstep, specSelect]
    split
    · exact ih x
    · exact ih b

/-- Reference greedy nearest-neighbor order from the spec (section 4.2):
repeatedly select the remaining waypoint at minimum distance from the
current position, append it and move to it. -/
noncomputable def greedySpecOrder : List Bin → ℝ × ℝ → List Bin
  | [], _ => []
  | b :: rest, p =>
    let w := specSelect p b rest
    w :: greedySpecOrder ((b :: rest).erase w) (w.lat, w.lon)
termination_by l _ => l.length
decreasing_by
  rw [List.length_erase_of_mem (specSelect_mem p b rest)]
  simp

lemma greedySpecOrder_nil (p : ℝ × ℝ) : greedySpecOrder [] p = [] := by
  rw [greedySpecOrder]

lemma greedySpecOrder_cons (p : ℝ × ℝ) (b : Bin) (rest : List Bin) :
    greedySpecOrder (b :: rest) p =
      specSelect p b rest ::
        greedySpecOrder ((b :: rest).erase (specSelect p b rest))
          ((specSelect p b rest).lat, (specSelect p b rest).lon) := by
  rw [greedySpecOrder]

/-- Sum of consecutive pairwise distances along a list of waypoints
(spec, section 4.3: "sum consecutive pairwise distances between waypoints
only"). It involves no starting position. -/
noncomputable def consecSum : List Bin → ℝ
  | x :: y :: rest => dBins x y + consecSum (y :: rest)
  | _ => 0

/-- Total route length per the spec (section 3, Invariant): the leg from the
starting position to the first waypoint plus the sum of consecutive pairwise
distances along the order; 0 for an empty order. -/
noncomputable def specTotal (p : ℝ × ℝ) (order : List Bin) : ℝ :=
  match order with
  | [] => 0
  | b :: _ => dPos p b + consecSum order

/-- Embedding of the baseline computation of `optimize_route`
(`src/backend.py` lines 507-513): `random_distance = 0`, and if the shuffled
list has more than one element, add `calculate_distance` between each
consecutive pair of positions `i`, `i+1`. -/
noncomputable def random_distance_code (l : List Bin) : ℝ :=
  if 1 < l.length then (List.zipWith dBins l l.tail).sum else 0

/-- Embedding of `optimal_fuel = optimal_distance / 12` (line 515). -/
noncomputable def optimal_fuel_calc (optimal_distance : ℝ) : ℝ :=
  optimal_distance / 12

/-- Embedding of `fuel_cost = optimal_fuel * 100` (line 516). -/
noncomputable def fuel_cost_calc (optimal_distance : ℝ) : ℝ :=
  optimal_fuel_calc optimal_distance * 100

/-- Embedding of `savings = (random_distance/12 - optimal_fuel) * 100 if
random_distance > 0 else 0` (line 518). -/
noncomputable def savings_calc (optimal_distance random_distance : ℝ) : ℝ :=
  if 0 < random_distance then
    (random_distance / 12 - optimal_fuel_calc optimal_distance) * 100
  else 0

/-- Embedding of `efficiency = ((random_distance - optimal_distance) /
random_distance * 100) if random_distance > 0 else 0` (line 519). -/
noncomputable def efficiency_calc (optimal_distance random_distance : ℝ) : ℝ :=
  if 0 < random_distance then
    (random_distance - optimal_distance) / random_distance * 100
  else 0

/-- Python `round` on reals: round half to even (banker's rounding). -/
noncomputable def round_half_even (x : ℝ) : ℤ :=
  if x - ⌊x⌋ = 1 / 2 then (if Even ⌊x⌋ then ⌊x⌋ else ⌊x⌋ + 1) else round x

/-- Python `round(x)` as a real-valued operation. -/
noncomputable def pyround0 (x : ℝ) : ℝ := (round_half_even x : ℝ)

/-- Python `round(x, 2)` as a real-valued operation: round `x * 100` to an
integer and divide back by 100. -/
noncomputable def pyround2 (x : ℝ) : ℝ := (round_half_even (x * 100) : ℝ) / 100

/-- The truck position registry (`src/backend.py` lines 113-117): latitude
and longitude start as `None` until a GPS update arrives. -/
structure Truck where
  lat : Option ℝ
  lon : Option ℝ

/-- The JSON document returned by a successful `/api/optimize` evaluation
(`src/backend.py` lines 521-529). -/
structure EvalResult where
  optimal_distance : ℝ
  random_distance : ℝ
  optimal_fuel : ℝ
  optimal_cost : ℝ
  savings : ℝ
  efficiency_gain : ℝ
  route : List (String × String)

/-- Outcome of the `/api/optimize` endpoint: the 400 error response, the
"No bins need collection" response, or a successful evaluation. -/
inductive OptimizeResult where
  | error (msg : String)
  | noBins
  | ok (r : EvalResult)

/-- The GPS-unavailable error message of `src/backend.py` line 483. -/
def gpsUnavailableMsg : String :=
  "Truck GPS not received yet. Open /gps on your phone and press Start Tracking."

/-- Bins eligible for collection (`src/backend.py` lines 487-490): all
dustbins with `fill >= 50`. -/
noncomputable def bins_to_collect (dustbins : List Bin) : List Bin :=
  dustbins.filter (fun b => b.fill ≥ 50)

/-- The successful-evaluation branch of `optimize_route` (`src/backend.py`
lines 499-529): run the solver from the truck position, compute the shuffled
baseline, derive the metrics and round the reported fields. -/
noncomputable def evaluate_core (tlat tlon : ℝ) (binsIn : List Bin)
    (shuffle : List Bin → List Bin) : EvalResult :=
  let optimal_distance := (optimize_route_tsp (tlat, tlon) binsIn).2
  let random_distance := random_distance_code (shuffle binsIn)
  { optimal_distance := pyround2 optimal_distance
    random_distance := pyround2 random_distance
    optimal_fuel := pyround2 (optimal_fuel_calc optimal_distance)
    optimal_cost := pyround0 (fuel_cost_calc optimal_distance)
    savings := pyround0 (savings_calc optimal_distance random_distance)
    efficiency_gain := pyround0 (efficiency_calc optimal_distance random_distance)
    route := (optimize_route_tsp (tlat, tlon) binsIn).1.map (fun b => (b.id, b.name)) }

/-- Embedding of the `/api/optimize` endpoint `optimize_route`
(`src/backend.py` lines 477-529).  `shuffle` stands for the outcome of
`random.shuffle` on a copy of the eligible-bin list. -/
noncomputable def optimize_route (t : Truck) (dustbins : List Bin)
    (shuffle : List Bin → List Bin) : OptimizeResult :=
  match t.lat, t.lon with
  | some tlat, some tlon =>
    if bins_to_collect dustbins = [] then OptimizeResult.noBins
    else OptimizeResult.ok (evaluate_core tlat tlon (bins_to_collect dustbins) shuffle)
  | _, _ => OptimizeResult.error gpsUnavailableMsg

/-- Constructor test used to state that a result is not a computed route. -/
def isRouteResult : OptimizeResult → Bool
  | OptimizeResult.ok _ => true
  | _ => false

/-- Projection of the reported `optimal_fuel` field of a successful result. -/
def fuelOf : OptimizeResult → ℝ
  | OptimizeResult.ok r => r.optimal_fuel
  | _ => 0

lemma nnLoop_eq_spec : ∀ (n : ℕ) (l : List Bin), l.length ≤ n → ∀ p : ℝ × ℝ,
    nnLoop l p = (greedySpecOrder l p, specTotal p (greedySpecOrder l p)) := by
  intro n
  induction n with
  | zero =>
    intro l hl p
    have hnil : l = [] := List.length_eq_zero.mp (Nat.le_zero.mp hl)
    subst hnil
    rw [nnLoop_nil, greedySpecOrder_nil]
    simp [specTotal]
  | succ n ih =>
    intro l hl p
    cases l with
    | nil =>
      rw [nnLoop_nil, greedySpecOrder_nil]
      simp [specTotal]
    | cons b rest =>
      rw [nnLoop_cons, greedySpecOrder_cons, selectNearest_eq_specSelect]
      have hmem : specSelect p b rest ∈ b :: rest := specSelect_mem p b rest
      have hlen : ((b :: rest).erase (specSelect p b rest)).length ≤ n := by
        rw [List.length_erase_of_mem hmem]
        simp only [List.length_cons] at hl ⊢
        omega
      rw [ih _ hlen]
      refine Prod.ext rfl ?_
      simp only
      cases hG : greedySpecOrder ((b :: rest).erase (specSelect p b rest))
          ((specSelect p b rest).lat, (specSelect p b rest).lon) with
      | nil => simp [specTotal, consecSum]
      | cons g G =>
        have hd : dPos ((specSelect p b rest).lat, (specSelect p b rest).lon) g =
            dBins (specSelect p b rest) g := rfl
        simp [specTotal, consecSum, hd]

lemma nnLoop_spec (l : List Bin) (p : ℝ × ℝ) :
    nnLoop l p = (greedySpecOrder l p, specTotal p (greedySpecOrder l p)) :=
  nnLoop_eq_spec l.length l le_rfl p

lemma nnLoop_perm_aux : ∀ (n : ℕ) (l : List Bin), l.length ≤ n → ∀ p : ℝ × ℝ,
    ((nnLoop l p).1).Perm l := by
  intro n
  induction n with
  | zero =>
    intro l hl p
    have hnil : l = [] := List.length_eq_zero.mp (Nat.le_zero.mp hl)
    subst hnil
    rw [nnLoop_nil]
  | succ n ih =>
    intro l hl p
    cases l with
    | nil => rw [nnLoop_nil]
    | cons b rest =>
      rw [nnLoop_cons]
      have hmem : selectNearest p b rest ∈ b :: rest := selectNearest_mem p b rest
      have hlen : ((b :: rest).erase (selectNearest p b rest)).length ≤ n := by
        rw [List.length_erase_of_mem hmem]
        simp only [List.length_cons] at hl ⊢
        omega
      have htail := ih _ hlen
        ((selectNearest p b rest).lat, (selectNearest p b rest).lon)
      have herase := List.perm_cons_erase hmem
      exact ((htail.cons (selectNearest p b rest)).trans herase.symm)

lemma nnLoop_perm (l : List Bin) (p : ℝ × ℝ) : ((nnLoop l p).1).Perm l :=
  nnLoop_perm_aux l.length l le_rfl p

/-- The element `x` is the first element of `l` attaining the minimum
distance from the position `p`: `l` splits as `l₁ ++ x :: l₂` where `x`
realizes the minimum over all of `l` and every element before it is
strictly farther. -/
def isFirstMin (p : ℝ × ℝ) (l : List Bin) (x : Bin) : Prop :=
  ∃ l₁ l₂, l = l₁ ++ x :: l₂ ∧ (∀ y ∈ l, dPos p x ≤ dPos p y) ∧
    (∀ y ∈ l₁, dPos p x < dPos p y)

lemma selectNearest_isFirstMin (p : ℝ × ℝ) (b : Bin) (rest : List Bin) :
    isFirstMin p (b :: rest) (selectNearest p b rest) := by
  induction rest generalizing b with
  | nil =>
    refine ⟨[], [], by simp [selectNearest], ?_, by simp⟩
    intro y hy
    have : y = b := by simpa using hy
    subst this
    exact le_refl _
  | cons x rs ih =>
    have hstep : selectNearest p b (x :: rs) =
        selectNearest p (if dPos p x < dPos p b then x else b) rs := by
      simp [selectNearest, List.foldl_cons]
    by_cases hx : dPos p x < dPos p b
    · rw [hstep, if_pos hx]
      obtain ⟨l₁, l₂, heq, hmin, hstrict⟩ := ih x
      have hselx : dPos p (selectNearest p x rs) ≤ dPos p x := hmin x (by simp)
      refine ⟨b :: l₁, l₂, ?_, ?_, ?_⟩
      · rw [List.cons_append, ← heq]
      · intro y hy
        rcases List.mem_cons.mp hy with rfl | hy'
        · linarith
        · exact hmin y hy'
      · intro y hy
        rcases List.mem_cons.mp hy with rfl | hy'
        · linarith
        · exact hstrict y hy'
    · rw [hstep, if_neg hx]
      have hbx : dPos p b ≤ dPos p x := le_of_not_lt hx
      obtain ⟨l₁, l₂, heq, hmin, hstrict⟩ := ih b
      cases l₁ with
      | nil =>
        simp only [List.nil_append] at heq
        injection heq with hb hl
        rw [← hb] at hmin ⊢
        refine ⟨[], x :: rs, rfl, ?_, by simp⟩
        intro y hy
        rcases List.mem_cons.mp hy with rfl | hy'
        · exact le_refl _
        rcases List.mem_cons.mp hy' with rfl | hy''
        · exact hbx
        · exact hmin y (List.mem_cons_of_mem b hy'')
      | cons b' l₁' =>
        rw [List.cons_append] at heq
        injection heq with hb hl
        subst hb
        have hselb : dPos p (selectNearest p b rs) < dPos p b := hstrict b (by simp)
        refine ⟨b :: x :: l₁', l₂, ?_, ?_, ?_⟩
        · simp only [List.cons_append]
          rw [← hl]
        · intro y hy
          rcases List.mem_cons.mp hy with rfl | hy'
          · exact le_of_lt hselb
          rcases List.mem_cons.mp hy' with rfl | hy''
          · exact le_trans (le_of_lt hselb) hbx
          · exact hmin y (List.mem_cons_of_mem b hy'')
        · intro y hy
          rcases List.mem_cons.mp hy with rfl | hy'
          · exact hselb
          rcases List.mem_cons.mp hy' with rfl | hy''
          · exact lt_of_lt_of_le hselb hbx
          · exact hstrict y (List.mem_cons_of_mem b hy'')

/-- The order `order` is a trace of the deterministic greedy run from `p`
over pool `l`: at each step the first minimum-distance element of the
remaining pool (in iteration order) is selected and removed. -/
def isGreedyFirstTrace : ℝ × ℝ → List Bin → List Bin → Prop
  | _, l, [] => l = []
  | p, l, x :: rest =>
    isFirstMin p l x ∧ isGreedyFirstTrace (x.lat, x.lon) (l.erase x) rest

lemma nnLoop_trace_aux : ∀ (n : ℕ) (l : List Bin), l.length ≤ n → ∀ p : ℝ × ℝ,
    isGreedyFirstTrace p l (nnLoop l p).1 := by
  intro n
  induction n with
  | zero =>
    intro l hl p
    have hnil : l = [] := List.length_eq_zero.mp (Nat.le_zero.mp hl)
    subst hnil
    rw [nnLoop_nil]
    simp [isGreedyFirstTrace]
  | succ n ih =>
    intro l hl p
    cases l with
    | nil =>
      rw [nnLoop_nil]
      simp [isGreedyFirstTrace]
    | cons b rest =>
      rw [nnLoop_cons]
      have hmem : selectNearest p b rest ∈ b :: rest := selectNearest_mem p b rest
      have hlen : ((b :: rest).erase (selectNearest p b rest)).length ≤ n := by
        rw [List.length_erase_of_mem hmem]
        simp only [List.length_cons] at hl ⊢
        omega
      exact ⟨selectNearest_isFirstMin p b rest,
        ih _ hlen ((selectNearest p b rest).lat, (selectNearest p b rest).lon)⟩

lemma nnLoop_trace (l : List Bin) (p : ℝ × ℝ) :
    isGreedyFirstTrace p l (nnLoop l p).1 :=
  nnLoop_trace_aux l.length l le_rfl p

lemma cos_mul_cos_eq (p q : ℝ) :
    Real.cos p * Real.cos q =
      Real.cos ((p + q) / 2) ^ 2 - Real.sin ((q - p) / 2) ^ 2 := by
  have e1 := Real.cos_add ((p + q) / 2) ((q - p) / 2)
  have e2 := Real.cos_sub ((p + q) / 2) ((q - p) / 2)
  rw [show (p + q) / 2 + (q - p) / 2 = q by ring] at e1
  rw [show (p + q) / 2 - (q - p) / 2 = p by ring] at e2
  have p1 := Real.sin_sq_add_cos_sq ((p + q) / 2)
  have p2 := Real.sin_sq_add_cos_sq ((q - p) / 2)
  rw [e1, e2]
  linear_combination (- Real.sin ((q - p) / 2) ^ 2) * p1 +
    Real.cos ((p + q) / 2) ^ 2 * p2

lemma haversine_a_mem (lat1 lon1 lat2 lon2 : ℝ) :
    0 ≤ haversine_a lat1 lon1 lat2 lon2 ∧ haversine_a lat1 lon1 lat2 lon2 ≤ 1 := by
  unfold haversine_a
  rw [cos_mul_cos_eq]
  have hA := Real.sin_sq_le_one ((radians lat2 - radians lat1) / 2)
  have hS := Real.cos_sq_le_one ((radians lat1 + radians lat2) / 2)
  have hs1 := Real.sin_sq_le_one ((radians lon2 - radians lon1) / 2)
  have hA0 := sq_nonneg (Real.sin ((radians lat2 - radians lat1) / 2))
  have hS0 := sq_nonneg (Real.cos ((radians lat1 + radians lat2) / 2))
  have hs0 := sq_nonneg (Real.sin ((radians lon2 - radians lon1) / 2))
  constructor
  · nlinarith [mul_nonneg hA0 (sub_nonneg.mpr hs1), mul_nonneg hS0 hs0]
  · nlinarith [mul_nonneg (sub_nonneg.mpr hA) (sub_nonneg.mpr hs1),
      mul_nonneg (sub_nonneg.mpr hS) hs0]

lemma atan2_nonneg (y x : ℝ) (hy : 0 ≤ y) : 0 ≤ atan2 y x := by
  unfold atan2
  by_cases h1 : 0 < x
  · rw [if_pos h1]
    have h : 0 ≤ y / x := div_nonneg hy (le_of_lt h1)
    have hmono := Real.arctan_strictMono.monotone h
    rwa [Real.arctan_zero] at hmono
  · rw [if_neg h1]
    by_cases h2 : x < 0
    · rw [if_pos h2, if_pos hy]
      have harc := Real.neg_pi_div_two_lt_arctan (y / x)
      have hpi := Real.pi_pos
      linarith
    · rw [if_neg h2]
      by_cases h4 : 0 < y
      · rw [if_pos h4]
        have hpi := Real.pi_pos
        linarith
      · rw [if_neg h4, if_neg (by linarith : ¬y < 0)]

lemma calculate_distance_nonneg (lat1 lon1 lat2 lon2 : ℝ) :
    0 ≤ calculate_distance lat1 lon1 lat2 lon2 := by
  unfold calculate_distance
  have h := atan2_nonneg (Real.sqrt (haversine_a lat1 lon1 lat2 lon2))
    (Real.sqrt (1 - haversine_a lat1 lon1 lat2 lon2)) (Real.sqrt_nonneg _)
  nlinarith

lemma haversine_a_symm (lat1 lon1 lat2 lon2 : ℝ) :
    haversine_a lat1 lon1 lat2 lon2 = haversine_a lat2 lon2 lat1 lon1 := by
  unfold haversine_a
  have h1 : ∀ u v : ℝ, Real.sin ((u - v) / 2) ^ 2 = Real.sin ((v - u) / 2) ^ 2 := by
    intro u v
    rw [show (u - v) / 2 = -((v - u) / 2) by ring, Real.sin_neg]
    ring
  rw [h1 (radians lat2) (radians lat1), h1 (radians lon2) (radians lon1),
    mul_comm (Real.cos (radians lat1)) (Real.cos (radians lat2))]

lemma calculate_distance_symm (lat1 lon1 lat2 lon2 : ℝ) :
    calculate_distance lat1 lon1 lat2 lon2 = calculate_distance lat2 lon2 lat1 lon1 := by
  unfold calculate_distance
  rw [haversine_a_symm]

lemma haversine_a_self (lat lon : ℝ) : haversine_a lat lon lat lon = 0 := by
  unfold haversine_a
  simp

lemma atan2_zero_one : atan2 0 1 = 0 := by
  unfold atan2
  rw [if_pos (by norm_num : (0:ℝ) < 1)]
  norm_num [Real.arctan_zero]

lemma calculate_distance_self (lat lon : ℝ) : calculate_distance lat lon lat lon = 0 := by
  unfold calculate_distance
  rw [haversine_a_self]
  norm_num [Real.sqrt_zero, Real.sqrt_one, atan2_zero_one]

lemma dBins_symm (x y : Bin) : dBins x y = dBins y x := by
  unfold dBins
  exact calculate_distance_symm _ _ _ _

lemma dBins_self (x : Bin) : dBins x x = 0 := calculate_distance_self _ _

lemma round_half_even_intCast (k : ℤ) : round_half_even (k : ℝ) = k := by
  unfold round_half_even
  rw [Int.floor_intCast, if_neg (by norm_num)]
  exact round_intCast k

lemma round_half_even_of_lt_half (m : ℤ) (x : ℝ) (h1 : (m : ℝ) ≤ x)
    (h2 : x < m + 1 / 2) : round_half_even x = m := by
  have hf : ⌊x⌋ = m := Int.floor_eq_iff.mpr ⟨h1, by linarith⟩
  unfold round_half_even
  rw [hf, if_neg (by intro hc; linarith), round_eq]
  exact Int.floor_eq_iff.mpr ⟨by linarith, by linarith⟩

lemma round_half_even_of_gt_half (m : ℤ) (x : ℝ) (h1 : (m : ℝ) + 1 / 2 < x)
    (h2 : x < m + 1) : round_half_even x = m + 1 := by
  have hf : ⌊x⌋ = m := Int.floor_eq_iff.mpr ⟨by linarith, h2⟩
  unfold round_half_even
  rw [hf, if_neg (by intro hc; linarith), round_eq]
  exact Int.floor_eq_iff.mpr ⟨by push_cast; linarith, by push_cast; linarith⟩

lemma round_half_even_nonpos (x : ℝ) (h : x < 0) : round_half_even x ≤ 0 := by
  unfold round_half_even
  split_ifs with h1 h2
  · calc ⌊x⌋ ≤ ⌊(0 : ℝ)⌋ := Int.floor_le_floor (le_of_lt h)
    _ = 0 := Int.floor_zero
  · have hx : (⌊x⌋ : ℝ) < -(1 / 2) := by linarith
    have hneg : ⌊x⌋ < 0 := by
      have : (⌊x⌋ : ℝ) < 0 := lt_trans hx (by norm_num)
      exact_mod_cast this
    omega
  · rw [round_eq]
    have hlt : ⌊x + 1 / 2⌋ < 1 := Int.floor_lt.mpr (by push_cast; linarith)
    omega

lemma pyround0_idem (x : ℝ) : pyround0 (pyround0 x) = pyround0 x := by
  unfold pyround0
  rw [round_half_even_intCast]

lemma pyround2_idem (x : ℝ) : pyround2 (pyround2 x) = pyround2 x := by
  unfold pyround2
  rw [div_mul_cancel₀ _ (by norm_num : (100 : ℝ) ≠ 0), round_half_even_intCast]

lemma pyround0_zero : pyround0 0 = 0 := by
  unfold pyround0
  rw [show (0 : ℝ) = ((0 : ℤ) : ℝ) by norm_num, round_half_even_intCast]

lemma pyround2_zero : pyround2 0 = 0 := by
  unfold pyround2
  rw [show (0 : ℝ) * 100 = ((0 : ℤ) : ℝ) by norm_num, round_half_even_intCast]
  norm_num

lemma pyround0_nonpos (x : ℝ) (h : x < 0) : pyround0 x ≤ 0 := by
  unfold pyround0
  have := round_half_even_nonpos x h
  exact_mod_cast this

lemma radians_zero : radians 0 = 0 := by
  unfold radians
  ring

lemma radians_90 : radians 90 = Real.pi / 2 := by
  unfold radians
  ring

lemma radians_180 : radians 180 = Real.pi := by
  unfold radians
  ring

lemma radians_neg180 : radians (-180) = -Real.pi := by
  unfold radians
  ring

lemma atan2_one_zero : atan2 1 0 = Real.pi / 2 := by
  unfold atan2
  norm_num

lemma atan2_sqrt_half : atan2 (Real.sqrt (1 / 2)) (Real.sqrt (1 / 2)) = Real.pi / 4 := by
  unfold atan2
  have hpos : 0 < Real.sqrt (1 / 2) := Real.sqrt_pos.mpr (by norm_num)
  rw [if_pos hpos, div_self (ne_of_gt hpos), Real.arctan_one]

lemma haversine_a_0_0_0_180 : haversine_a 0 0 0 180 = 1 := by
  unfold haversine_a
  rw [radians_zero, radians_180]
  norm_num

lemma dist_0_0_0_180 : calculate_distance 0 0 0 180 = 6371 * Real.pi := by
  unfold calculate_distance
  rw [haversine_a_0_0_0_180]
  norm_num [Real.sqrt_one, atan2_one_zero]
  ring

lemma haversine_a_pm180 : haversine_a 0 (-180) 0 180 = 0 := by
  unfold haversine_a
  rw [radians_zero, radians_180, radians_neg180]
  rw [show (Real.pi - -Real.pi) / 2 = Real.pi by ring, Real.sin_pi]
  norm_num

lemma dist_pm180 : calculate_distance 0 (-180) 0 180 = 0 := by
  unfold calculate_distance
  rw [haversine_a_pm180]
  norm_num [Real.sqrt_zero, Real.sqrt_one, atan2_zero_one]

lemma haversine_a_0_0_0_90 : haversine_a 0 0 0 90 = 1 / 2 := by
  unfold haversine_a
  rw [radians_zero, radians_90]
  rw [show (Real.pi / 2 - 0) / 2 = Real.pi / 4 by ring, Real.sin_pi_div_four]
  rw [div_pow, Real.sq_sqrt (by norm_num : (0 : ℝ) ≤ 2)]
  norm_num

lemma dist_0_0_0_90 : calculate_distance 0 0 0 90 = 6371 * (Real.pi / 2) := by
  unfold calculate_distance
  rw [haversine_a_0_0_0_90, show (1 : ℝ) - 1 / 2 = 1 / 2 by norm_num, atan2_sqrt_half]
  norm_num
  ring

lemma haversine_a_0_90_0_180 : haversine_a 0 90 0 180 = 1 / 2 := by
  unfold haversine_a
  rw [radians_zero, radians_90, radians_180]
  rw [show (Real.pi - Real.pi / 2) / 2 = Real.pi / 4 by ring, Real.sin_pi_div_four]
  rw [div_pow, Real.sq_sqrt (by norm_num : (0 : ℝ) ≤ 2)]
  norm_num

lemma dist_0_90_0_180 : calculate_distance 0 90 0 180 = 6371 * (Real.pi / 2) := by
  unfold calculate_distance
  rw [haversine_a_0_90_0_180, show (1 : ℝ) - 1 / 2 = 1 / 2 by norm_num, atan2_sqrt_half]
  norm_num
  ring

lemma zipWith_tail_sum : ∀ l : List Bin, (List.zipWith dBins l l.tail).sum = consecSum l := by
  intro l
  induction l with
  | nil => simp [consecSum]
  | cons x l ih =>
    cases l with
    | nil => simp [consecSum]
    | cons y rest =>
      simp only [List.tail_cons, List.zipWith_cons_cons, List.sum_cons]
      rw [consecSum]
      congr 1

lemma random_distance_code_eq_consecSum (l : List Bin) :
    random_distance_code l = consecSum l := by
  unfold random_distance_code
  by_cases h : 1 < l.length
  · rw [if_pos h, zipWith_tail_sum]
  · rw [if_neg h]
    cases l with
    | nil => simp [consecSum]
    | cons x l' =>
      cases l' with
      | nil => simp [consecSum]
      | cons y l'' => simp at h

lemma random_distance_code_short (l : List Bin) (h : l.length < 2) :
    random_distance_code l = 0 := by
  unfold random_distance_code
  rw [if_neg (by omega)]

lemma bins_to_collect_all (l : List Bin) (h : ∀ b ∈ l, b.fill ≥ 50) :
    bins_to_collect l = l := by
  unfold bins_to_collect
  rw [List.filter_eq_self]
  intro a ha
  simpa using h a ha

lemma optimize_route_some_eval (tlat tlon : ℝ) (dustbins : List Bin)
    (shuffle : List Bin → List Bin) (hne : bins_to_collect dustbins ≠ []) :
    optimize_route ⟨some tlat, some tlon⟩ dustbins shuffle =
      OptimizeResult.ok (evaluate_core tlat tlon (bins_to_collect dustbins) shuffle) := by
  unfold optimize_route
  simp only
  rw [if_neg hne]

lemma optimize_route_ok_inv (t : Truck) (dustbins : List Bin)
    (shuffle : List Bin → List Bin) (r : EvalResult)
    (h : optimize_route t dustbins shuffle = OptimizeResult.ok r) :
    ∃ tlat tlon, t = ⟨some tlat, some tlon⟩ ∧ bins_to_collect dustbins ≠ [] ∧
      r = evaluate_core tlat tlon (bins_to_collect dustbins) shuffle := by
  obtain ⟨tlat?, tlon?⟩ := t
  cases tlat? with
  | none => unfold optimize_route at h; simp at h
  | some tlat =>
    cases tlon? with
    | none => unfold optimize_route at h; simp at h
    | some tlon =>
      unfold optimize_route at h
      simp only at h
      by_cases he : bins_to_collect dustbins = []
      · rw [if_pos he] at h
        simp at h
      · rw [if_neg he] at h
        refine ⟨tlat, tlon, rfl, he, ?_⟩
        injection h with h'
        exact h'.symm

lemma nnLoop_single (p : ℝ × ℝ) (b : Bin) : nnLoop [b] p = ([b], dPos p b + 0) := by
  rw [nnLoop_cons]
  simp [selectNearest, List.erase_cons_head, nnLoop_nil]

lemma tsp_single (p : ℝ × ℝ) (b : Bin) :
    optimize_route_tsp p [b] = ([b], dPos p b + 0) := by
  unfold optimize_route_tsp
  exact nnLoop_single p b

lemma selectNearest_pair (p : ℝ × ℝ) (w1 w2 : Bin) :
    selectNearest p w1 [w2] = if dPos p w2 < dPos p w1 then w2 else w1 := rfl

lemma tsp_pair (s : ℝ × ℝ) (w1 w2 : Bin) (hne : w1 ≠ w2) :
    optimize_route_tsp s [w1, w2] =
      if dPos s w2 < dPos s w1 then ([w2, w1], dPos s w2 + (dBins w2 w1 + 0))
      else ([w1, w2], dPos s w1 + (dBins w1 w2 + 0)) := by
  unfold optimize_route_tsp
  rw [nnLoop_cons, selectNearest_pair]
  by_cases hd : dPos s w2 < dPos s w1
  · rw [if_pos hd, if_pos hd]
    have he : ([w1, w2] : List Bin).erase w2 = [w1] := by
      rw [List.erase_cons_tail (not_beq_of_ne hne), List.erase_cons_head]
    rw [he, nnLoop_single]
    rfl
  · rw [if_neg hd, if_neg hd]
    have he : ([w1, w2] : List Bin).erase w1 = [w2] := List.erase_cons_head w1 [w2]
    rw [he, nnLoop_single]
    rfl

lemma perm_pair_cases {w1 w2 : Bin} {l : List Bin} (h : l.Perm [w1, w2]) :
    l = [w1, w2] ∨ l = [w2, w1] := by
  have hlen : l.length = 2 := by simpa using h.length_eq
  cases l with
  | nil => simp at hlen
  | cons x l1 =>
    cases l1 with
    | nil => simp at hlen
    | cons y l2 =>
      cases l2 with
      | cons z l3 => simp at hlen
      | nil =>
        by_cases hxw : x = w1
        · subst hxw
          left
          have h2 : ([y] : List Bin).Perm [w2] := h.cons_inv
          have hy : y = w2 := by simpa using List.perm_singleton.mp h2
          rw [hy]
        · have hmem : x ∈ ([w1, w2] : List Bin) := h.mem_iff.mp (by simp)
          have hx2 : x = w2 := by
            rcases (by simpa using hmem : x = w1 ∨ x = w2) with h' | h'
            · exact absurd h' hxw
            · exact h'
          rw [hx2] at h
          right
          have hswap : ([w1, w2] : List Bin).Perm [w2, w1] := List.Perm.swap w2 w1 []
          have h3 : ([w2, y] : List Bin).Perm [w2, w1] := h.trans hswap
          have hy : y = w1 := by simpa using List.perm_singleton.mp h3.cons_inv
          rw [hx2, hy]

/-- A concrete eligible bin at the truck position (0,0). -/
noncomputable def binHome : Bin := ⟨"1", "Bin 1", 0, 0, 80⟩

/-- A concrete eligible bin at latitude 0, longitude 180. -/
noncomputable def bin180 : Bin := ⟨"1", "Bin 1", 0, 180, 80⟩

/-- A concrete eligible bin at latitude 0, longitude 180. -/
noncomputable def binB : Bin := ⟨"2", "Bin B", 0, 180, 80⟩

/-- A concrete eligible bin at latitude 0, longitude 90. -/
noncomputable def bin90 : Bin := ⟨"1", "Bin A", 0, 90, 80⟩

/-- The result of evaluating the endpoint at truck (0,0) with the single
bin `binHome` at the same position: all figures are zero. -/
noncomputable def homeResult : EvalResult :=
  ⟨0, 0, 0, 0, 0, 0, [("1", "Bin 1")]⟩

lemma bins_to_collect_home : bins_to_collect [binHome] = [binHome] := by
  refine bins_to_collect_all _ ?_
  intro b hb
  rw [List.mem_singleton.mp hb]
  show (80 : ℝ) ≥ 50
  norm_num

lemma bins_to_collect_bin180 : bins_to_collect [bin180] = [bin180] := by
  refine bins_to_collect_all _ ?_
  intro b hb
  rw [List.mem_singleton.mp hb]
  show (80 : ℝ) ≥ 50
  norm_num

lemma dPos_home_binHome : dPos (0, 0) binHome = 0 := calculate_distance_self 0 0

lemma optimize_route_home_eval :
    optimize_route ⟨some 0, some 0⟩ [binHome] id = OptimizeResult.ok homeResult := by
  rw [optimize_route_some_eval 0 0 [binHome] id (by rw [bins_to_collect_home]; simp),
    bins_to_collect_home]
  congr 1
  have hrd : random_distance_code (id [binHome]) = 0 :=
    random_distance_code_short _ (by simp)
  unfold evaluate_core homeResult
  rw [tsp_single]
  simp only [hrd, dPos_home_binHome]
  unfold fuel_cost_calc savings_calc efficiency_calc optimal_fuel_calc
  norm_num [pyround2_zero, pyround0_zero, binHome]

lemma dPos_home_bin180 : dPos (0, 0) bin180 = 6371 * Real.pi := by
  show calculate_distance 0 0 bin180.lat bin180.lon = 6371 * Real.pi
  exact dist_0_0_0_180

lemma fuel_of_bin180 :
    fuelOf (optimize_route ⟨some 0, some 0⟩ [bin180] id) =
      pyround2 ((6371 * Real.pi + 0) / 12) := by
  rw [optimize_route_some_eval 0 0 [bin180] id (by rw [bins_to_collect_bin180]; simp),
    bins_to_collect_bin180]
  show (evaluate_core 0 0 [bin180] id).optimal_fuel = _
  unfold evaluate_core
  rw [tsp_single]
  simp only [dPos_home_bin180]
  rfl

lemma pyround2_fuel_value : pyround2 ((6371 * Real.pi + 0) / 12) = (166792 : ℝ) / 100 := by
  unfold pyround2
  have hlow : ((166792 : ℤ) : ℝ) ≤ (6371 * Real.pi + 0) / 12 * 100 := by
    push_cast
    nlinarith [Real.pi_gt_d6]
  have hhigh : (6371 * Real.pi + 0) / 12 * 100 < (166792 : ℤ) + 1 / 2 := by
    push_cast
    nlinarith [Real.pi_lt_d6]
  rw [round_half_even_of_lt_half 166792 _ hlow hhigh]
  norm_num

lemma pyround0_fuel_value : pyround0 ((166792 : ℝ) / 100) = 1668 := by
  unfold pyround0
  rw [round_half_even_of_gt_half 1667 _ (by norm_num) (by norm_num)]
  norm_num

lemma dPos_home_binB : dPos (0, 0) binB = 6371 * Real.pi := by
  show calculate_distance 0 0 binB.lat binB.lon = 6371 * Real.pi
  exact dist_0_0_0_180

lemma dPos_home_bin90 : dPos (0, 0) bin90 = 6371 * (Real.pi / 2) := by
  show calculate_distance 0 0 bin90.lat bin90.lon = 6371 * (Real.pi / 2)
  exact dist_0_0_0_90

lemma dBins_bin90_binB : dBins bin90 binB = 6371 * (Real.pi / 2) := by
  show calculate_distance bin90.lat bin90.lon binB.lat binB.lon = 6371 * (Real.pi / 2)
  exact dist_0_90_0_180

lemma bin90_ne_binB : bin90 ≠ binB := by
  intro h
  have hlon := congrArg Bin.lon h
  simp only [bin90, binB] at hlon
  norm_num at hlon

lemma selectNearest_home_90B : selectNearest (0, 0) bin90 [binB] = bin90 := by
  rw [selectNearest_pair, if_neg]
  rw [dPos_home_bin90, dPos_home_binB]
  intro hcon
  nlinarith [Real.pi_pos]

/-- Claim C1: for every start position and waypoint list, the solver output
equals the reference greedy nearest-neighbor definition: the order repeatedly
picks the remaining waypoint at minimum Haversine distance, and the total is
the leg from the start to the first chosen waypoint plus the sum of
consecutive pairwise distances along the chosen order; the empty input
returns an empty order and total 0.0. -/
theorem claim_C1_solver_is_greedy (p : ℝ × ℝ) (l : List Bin) :
    optimize_route_tsp p l = (greedySpecOrder l p, specTotal p (greedySpecOrder l p)) ∧
    optimize_route_tsp p [] = ([], 0) :=
  ⟨nnLoop_spec l p, nnLoop_nil p⟩

/-- Claim C2: the order returned by the route solver is a permutation of the
input sequence: its elements as a multiset equal the input elements as a
multiset (no waypoint dropped, duplicated or invented). -/
theorem claim_C2_permutation (p : ℝ × ℝ) (l : List Bin) :
    ((optimize_route_tsp p l).1 : Multiset Bin) = (l : Multiset Bin) :=
  Multiset.coe_eq_coe.mpr (nnLoop_perm l p)

/-- Claim C9: the route solver is deterministic (it is a pure function of the
start position and waypoint sequence, so identical calls yield identical
results), and at every step of the greedy run the waypoint selected among
equidistant candidates is the first one in the remaining pool's iteration
order (`isGreedyFirstTrace`). -/
theorem claim_C9_deterministic (p : ℝ × ℝ) (l : List Bin) :
    optimize_route_tsp p l = optimize_route_tsp p l ∧
    isGreedyFirstTrace p l (optimize_route_tsp p l).1 :=
  ⟨rfl, nnLoop_trace l p⟩

/-- Claim C8: for every finite latitude/longitude input the Haversine
intermediate value lies in [0,1], so both square-root arguments are in the
valid domain (no `math.sqrt` domain error can occur), and the returned
distance is non-negative. -/
theorem claim_C8_distance_safe (lat1 lon1 lat2 lon2 : ℝ) :
    0 ≤ haversine_a lat1 lon1 lat2 lon2 ∧
    haversine_a lat1 lon1 lat2 lon2 ≤ 1 ∧
    0 ≤ calculate_distance lat1 lon1 lat2 lon2 :=
  ⟨(haversine_a_mem lat1 lon1 lat2 lon2).1, (haversine_a_mem lat1 lon1 lat2 lon2).2,
    calculate_distance_nonneg lat1 lon1 lat2 lon2⟩

/-- Claim C7 counterexample: the distance is symmetric and zero on equal
points, but it is NOT zero only on equal points: the distinct coordinate
pairs (0,-180) and (0,180) are at Haversine distance exactly 0, refuting the
"zero iff equal" direction of the claim. -/
theorem claim_C7_counterexample :
    calculate_distance 0 (-180) 0 180 = 0 ∧
    ((0 : ℝ), (-180 : ℝ)) ≠ ((0 : ℝ), (180 : ℝ)) := by
  refine ⟨dist_pm180, ?_⟩
  intro h
  have hsnd := congrArg Prod.snd h
  norm_num at hsnd

/-- Claim C7 (amended): for all points, `distance(a,b) = distance(b,a)`
(symmetry) and `distance(a,a) = 0`; zero distance does not imply equal
coordinate pairs (see the counterexample at longitudes -180 and 180). -/
theorem claim_C7_amended (lat1 lon1 lat2 lon2 : ℝ) :
    calculate_distance lat1 lon1 lat2 lon2 = calculate_distance lat2 lon2 lat1 lon1 ∧
    calculate_distance lat1 lon1 lat1 lon1 = 0 :=
  ⟨calculate_distance_symm lat1 lon1 lat2 lon2, calculate_distance_self lat1 lon1⟩

/-- Claim C3: whenever the truck position is unset (latitude or longitude
is `None`), the evaluator returns the descriptive GPS-unavailable error and
never a computed route result; no default position is substituted. -/
theorem claim_C3_unset_position_error (t : Truck) (dustbins : List Bin)
    (shuffle : List Bin → List Bin) (h : t.lat = none ∨ t.lon = none) :
    optimize_route t dustbins shuffle = OptimizeResult.error gpsUnavailableMsg ∧
    isRouteResult (optimize_route t dustbins shuffle) = false := by
  obtain ⟨tlat?, tlon?⟩ := t
  cases tlat? with
  | none => cases tlon? <;> exact ⟨rfl, rfl⟩
  | some a =>
    cases tlon? with
    | none => exact ⟨rfl, rfl⟩
    | some b =>
      exfalso
      rcases h with h | h <;> simp at h

/-- Witness for claim C3 at the concrete unset truck. -/
theorem claim_C3_witness :
    optimize_route ⟨none, none⟩ [] id = OptimizeResult.error gpsUnavailableMsg ∧
    isRouteResult (optimize_route ⟨none, none⟩ [] id) = false :=
  claim_C3_unset_position_error ⟨none, none⟩ [] id (Or.inl rfl)

/-- Claim C4: in every successful evaluation the reported baseline distance
is the (rounded) sum of consecutive pairwise distances over the shuffled
eligible-bin list only — `consecSum` takes no start position, so the leg
from the start to the first permuted waypoint is excluded — and for fewer
than 2 waypoints the baseline distance is 0. -/
theorem claim_C4_baseline (tlat tlon : ℝ) (dustbins : List Bin)
    (shuffle : List Bin → List Bin) (r : EvalResult)
    (h : optimize_route ⟨some tlat, some tlon⟩ dustbins shuffle = OptimizeResult.ok r) :
    r.random_distance =
      pyround2 (random_distance_code (shuffle (bins_to_collect dustbins))) ∧
    random_distance_code (shuffle (bins_to_collect dustbins)) =
      consecSum (shuffle (bins_to_collect dustbins)) ∧
    ((shuffle (bins_to_collect dustbins)).length < 2 →
      random_distance_code (shuffle (bins_to_collect dustbins)) = 0) := by
  obtain ⟨a, b, ht, hne, hr⟩ := optimize_route_ok_inv _ _ _ _ h
  refine ⟨?_, random_distance_code_eq_consecSum _,
    fun hlen => random_distance_code_short _ hlen⟩
  rw [hr]
  rfl

/-- Witness for claim C4 at the concrete one-bin evaluation. -/
theorem claim_C4_witness :
    homeResult.random_distance =
      pyround2 (random_distance_code (id (bins_to_collect [binHome]))) ∧
    random_distance_code (id (bins_to_collect [binHome])) =
      consecSum (id (bins_to_collect [binHome])) ∧
    random_distance_code (id (bins_to_collect [binHome])) = 0 := by
  have h := claim_C4_baseline 0 0 [binHome] id homeResult optimize_route_home_eval
  exact ⟨h.1, h.2.1, h.2.2 (by rw [bins_to_collect_home]; simp)⟩

/-- Claim C5: the derived metrics satisfy `optimalFuel = optimalDistance/12`,
`cost = optimalFuel*100`, `savings = (baseline/12 - optimalFuel)*100` when
the baseline is positive and 0 otherwise, and `efficiencyGain =
(baseline - optimal)/baseline*100` when the baseline is positive and 0
otherwise; in particular a single eligible waypoint yields reported savings 0
and efficiency gain 0. -/
theorem claim_C5_metrics (od rd tlat tlon : ℝ) (dustbins : List Bin)
    (shuffle : List Bin → List Bin) (w : Bin)
    (hf : bins_to_collect dustbins = [w])
    (hs : (shuffle [w]).Perm [w]) :
    optimal_fuel_calc od = od / 12 ∧
    fuel_cost_calc od = optimal_fuel_calc od * 100 ∧
    savings_calc od rd = (if 0 < rd then (rd / 12 - optimal_fuel_calc od) * 100 else 0) ∧
    efficiency_calc od rd = (if 0 < rd then (rd - od) / rd * 100 else 0) ∧
    optimize_route ⟨some tlat, some tlon⟩ dustbins shuffle =
      OptimizeResult.ok (evaluate_core tlat tlon [w] shuffle) ∧
    (evaluate_core tlat tlon [w] shuffle).savings = 0 ∧
    (evaluate_core tlat tlon [w] shuffle).efficiency_gain = 0 := by
  have hshuf : shuffle [w] = [w] := List.perm_singleton.mp hs
  have hrd : random_distance_code (shuffle [w]) = 0 := by
    rw [hshuf]
    exact random_distance_code_short _ (by simp)
  refine ⟨rfl, rfl, rfl, rfl, ?_, ?_, ?_⟩
  · rw [optimize_route_some_eval tlat tlon dustbins shuffle (by rw [hf]; simp), hf]
  · show pyround0 (savings_calc (optimize_route_tsp (tlat, tlon) [w]).2
      (random_distance_code (shuffle [w]))) = 0
    rw [hrd]
    unfold savings_calc
    rw [if_neg (lt_irrefl 0)]
    exact pyround0_zero
  · show pyround0 (efficiency_calc (optimize_route_tsp (tlat, tlon) [w]).2
      (random_distance_code (shuffle [w]))) = 0
    rw [hrd]
    unfold efficiency_calc
    rw [if_neg (lt_irrefl 0)]
    exact pyround0_zero

/-- Witness for claim C5 at concrete inputs. -/
theorem claim_C5_witness :
    optimal_fuel_calc 5 = 5 / 12 ∧
    fuel_cost_calc 5 = optimal_fuel_calc 5 * 100 ∧
    savings_calc 5 3 = (if (0 : ℝ) < 3 then ((3 : ℝ) / 12 - optimal_fuel_calc 5) * 100 else 0) ∧
    efficiency_calc 5 3 = (if (0 : ℝ) < 3 then ((3 : ℝ) - 5) / 3 * 100 else 0) ∧
    optimize_route ⟨some 0, some 0⟩ [binHome] id =
      OptimizeResult.ok (evaluate_core 0 0 [binHome] id) ∧
    (evaluate_core 0 0 [binHome] id).savings = 0 ∧
    (evaluate_core 0 0 [binHome] id).efficiency_gain = 0 :=
  claim_C5_metrics 5 3 0 0 [binHome] id binHome bins_to_collect_home (List.Perm.refl _)

/-- Claim C6 counterexample: the reported `optimal_fuel` field is rounded to
2 decimal digits, not to a whole unit: at truck (0,0) with the single
eligible bin at (0,180) the reported fuel is 1667.92, which is not fixed by
whole-number rounding, refuting "all monetary and fuel outputs are rounded
to whole units". -/
theorem claim_C6_counterexample :
    fuelOf (optimize_route ⟨some 0, some 0⟩ [bin180] id) ≠
      pyround0 (fuelOf (optimize_route ⟨some 0, some 0⟩ [bin180] id)) := by
  rw [fuel_of_bin180, pyround2_fuel_value, pyround0_fuel_value]
  norm_num

/-- Claim C6 (amended): in every successful evaluation the monetary output
(`optimal_cost`) and the savings and efficiency-gain figures are rounded to
whole numbers (they are fixed points of whole-number rounding), while the
distances AND the fuel amount keep 2 decimal digits (fixed points of
2-decimal rounding). -/
theorem claim_C6_amended (t : Truck) (dustbins : List Bin)
    (shuffle : List Bin → List Bin) (r : EvalResult)
    (h : optimize_route t dustbins shuffle = OptimizeResult.ok r) :
    r.optimal_cost = pyround0 r.optimal_cost ∧
    r.savings = pyround0 r.savings ∧
    r.efficiency_gain = pyround0 r.efficiency_gain ∧
    r.optimal_distance = pyround2 r.optimal_distance ∧
    r.random_distance = pyround2 r.random_distance ∧
    r.optimal_fuel = pyround2 r.optimal_fuel := by
  obtain ⟨a, b, ht, hne, hr⟩ := optimize_route_ok_inv _ _ _ _ h
  subst hr
  exact ⟨(pyround0_idem _).symm, (pyround0_idem _).symm, (pyround0_idem _).symm,
    (pyround2_idem _).symm, (pyround2_idem _).symm, (pyround2_idem _).symm⟩

/-- Witness for the amended claim C6 at the concrete one-bin evaluation. -/
theorem claim_C6_amended_witness :
    homeResult.optimal_cost = pyround0 homeResult.optimal_cost ∧
    homeResult.savings = pyround0 homeResult.savings ∧
    homeResult.efficiency_gain = pyround0 homeResult.efficiency_gain ∧
    homeResult.optimal_distance = pyround2 homeResult.optimal_distance ∧
    homeResult.random_distance = pyround2 homeResult.random_distance ∧
    homeResult.optimal_fuel = pyround2 homeResult.optimal_fuel :=
  claim_C6_amended ⟨some 0, some 0⟩ [binHome] id homeResult optimize_route_home_eval

lemma sqrt_one_sub_sin_sq (x : ℝ) (h : 0 ≤ Real.cos x) :
    Real.sqrt (1 - Real.sin x ^ 2) = Real.cos x := by
  rw [show (1 : ℝ) - Real.sin x ^ 2 = Real.cos x ^ 2 by
    have := Real.sin_sq_add_cos_sq x; linarith]
  exact Real.sqrt_sq h

lemma atan2_sin_cos (x : ℝ) (h1 : 0 ≤ x) (h2 : x < Real.pi / 2) :
    atan2 (Real.sin x) (Real.cos x) = x := by
  have hpi := Real.pi_pos
  have hcos : 0 < Real.cos x := Real.cos_pos_of_mem_Ioo ⟨by linarith, h2⟩
  unfold atan2
  rw [if_pos hcos, ← Real.tan_eq_sin_div_cos, Real.arctan_tan (by linarith) h2]

lemma dist_equator (a b : ℝ) (h0 : 0 ≤ b - a) (h1 : b - a < 180) :
    calculate_distance 0 a 0 b = 6371 * radians (b - a) := by
  have hpi := Real.pi_pos
  have hθ0 : 0 ≤ radians (b - a) / 2 := by
    unfold radians
    have h2 : 0 ≤ (b - a) * (Real.pi / 180) := mul_nonneg h0 (by positivity)
    linarith
  have hθπ : radians (b - a) / 2 < Real.pi / 2 := by
    unfold radians
    nlinarith
  have ha : haversine_a 0 a 0 b = Real.sin (radians (b - a) / 2) ^ 2 := by
    unfold haversine_a
    rw [radians_zero, show radians b - radians a = radians (b - a) by unfold radians; ring]
    norm_num
  have hsin : 0 ≤ Real.sin (radians (b - a) / 2) :=
    Real.sin_nonneg_of_nonneg_of_le_pi hθ0 (by linarith)
  have hcos : 0 < Real.cos (radians (b - a) / 2) :=
    Real.cos_pos_of_mem_Ioo ⟨by linarith, hθπ⟩
  unfold calculate_distance
  rw [ha, Real.sqrt_sq hsin, sqrt_one_sub_sin_sq _ (le_of_lt hcos),
    atan2_sin_cos _ hθ0 hθπ]
  ring

lemma dPos_off_binHome :
    dPos (0, -(1 / 10000)) binHome = 6371 * radians (1 / 10000) := by
  show calculate_distance 0 (-(1 / 10000)) binHome.lat binHome.lon = _
  have h := dist_equator (-(1 / 10000)) 0 (by norm_num) (by norm_num)
  rw [show (0 : ℝ) - -(1 / 10000) = 1 / 10000 by norm_num] at h
  exact h

lemma dPos_off_bin90 :
    dPos (0, -(1 / 10000)) bin90 = 6371 * radians (90 + 1 / 10000) := by
  show calculate_distance 0 (-(1 / 10000)) bin90.lat bin90.lon = _
  have h := dist_equator (-(1 / 10000)) 90 (by norm_num) (by norm_num)
  rw [show (90 : ℝ) - -(1 / 10000) = 90 + 1 / 10000 by norm_num] at h
  exact h

lemma binHome_ne_bin90 : binHome ≠ bin90 := by
  intro h
  have hlon := congrArg Bin.lon h
  simp only [binHome, bin90] at hlon
  norm_num at hlon

lemma dBins_binHome_bin90 : dBins binHome bin90 = 6371 * (Real.pi / 2) := by
  show calculate_distance binHome.lat binHome.lon bin90.lat bin90.lon = _
  exact dist_0_0_0_90

lemma not_nearer_off :
    ¬ dPos (0, -(1 / 10000)) bin90 < dPos (0, -(1 / 10000)) binHome := by
  rw [dPos_off_bin90, dPos_off_binHome]
  unfold radians
  intro hcon
  nlinarith [Real.pi_pos]

lemma selectNearest_off :
    selectNearest (0, -(1 / 10000)) binHome [bin90] = binHome := by
  rw [selectNearest_pair, if_neg not_nearer_off]

lemma od_off : (optimize_route_tsp (0, -(1 / 10000)) [binHome, bin90]).2 =
    6371 * radians (1 / 10000) + (6371 * (Real.pi / 2) + 0) := by
  rw [tsp_pair _ _ _ binHome_ne_bin90, if_neg not_nearer_off]
  show dPos (0, -(1 / 10000)) binHome + (dBins binHome bin90 + 0) = _
  rw [dPos_off_binHome, dBins_binHome_bin90]

lemma rd_home90 : random_distance_code [binHome, bin90] = 6371 * (Real.pi / 2) := by
  rw [random_distance_code_eq_consecSum]
  show dBins binHome bin90 + consecSum [bin90] = _
  rw [dBins_binHome_bin90]
  simp [consecSum]

lemma rd_90home : random_distance_code [bin90, binHome] = 6371 * (Real.pi / 2) := by
  rw [random_distance_code_eq_consecSum]
  show dBins bin90 binHome + consecSum [binHome] = _
  rw [dBins_symm, dBins_binHome_bin90]
  simp [consecSum]

lemma pyround0_of_neg_small (x : ℝ) (h1 : -(1 / 2) < x) (h2 : x < 0) :
    pyround0 x = 0 := by
  unfold pyround0
  rw [round_half_even_of_gt_half (-1) x (by push_cast; linarith) (by push_cast; linarith)]
  norm_num

/-- Claim C10 counterexample: at start (0, -0.0001) with the two waypoints at
(0,0) and (0,90) — distinct positions at positive Haversine distance — the
start is at positive distance from the selected nearest waypoint and every
permutation yields the same baseline, yet the REPORTED savings and efficiency
gain are 0, not strictly negative: the raw figures are about -0.093 and
-1/9000, and whole-number rounding sends both to 0.  (The float trace agrees:
round(-0.0926) = 0 and round(-0.000111) = 0.) -/
theorem claim_C10_counterexample :
    (binHome.lat, binHome.lon) ≠ (bin90.lat, bin90.lon) ∧
    0 < dBins binHome bin90 ∧
    0 < dPos (0, -(1 / 10000)) (selectNearest (0, -(1 / 10000)) binHome [bin90]) ∧
    random_distance_code [binHome, bin90] = random_distance_code [bin90, binHome] ∧
    pyround0 (savings_calc (optimize_route_tsp (0, -(1 / 10000)) [binHome, bin90]).2
      (random_distance_code [binHome, bin90])) = 0 ∧
    pyround0 (efficiency_calc (optimize_route_tsp (0, -(1 / 10000)) [binHome, bin90]).2
      (random_distance_code [binHome, bin90])) = 0 := by
  refine ⟨?_, ?_, ?_, ?_, ?_, ?_⟩
  · intro h
    have hsnd := congrArg Prod.snd h
    simp only [binHome, bin90] at hsnd
    norm_num at hsnd
  · rw [dBins_binHome_bin90]
    positivity
  · rw [selectNearest_off, dPos_off_binHome]
    unfold radians
    positivity
  · rw [rd_home90, rd_90home]
  · rw [od_off, rd_home90]
    unfold savings_calc optimal_fuel_calc
    rw [if_pos (by positivity)]
    apply pyround0_of_neg_small
    · unfold radians
      nlinarith [Real.pi_lt_four]
    · unfold radians
      nlinarith [Real.pi_pos]
  · rw [od_off, rd_home90]
    unfold efficiency_calc
    rw [if_pos (by positivity)]
    have hval : (6371 * (Real.pi / 2) -
        (6371 * radians (1 / 10000) + (6371 * (Real.pi / 2) + 0))) /
        (6371 * (Real.pi / 2)) * 100 = -(1 / 9000) := by
      unfold radians
      have hpi : Real.pi ≠ 0 := Real.pi_ne_zero
      field_simp
      ring
    rw [hval]
    apply pyround0_of_neg_small <;> norm_num

/-- Claim C10 (amended): for two waypoints at distinct positions — formalized
as positive Haversine distance between them, since coordinate pairs such as
(0,-180) and (0,180) denote the same physical position — every permutation of
the pool gives the same baseline distance, namely the distance between the
two waypoints; the baseline is strictly below the solver total whenever the
start is at positive distance from the waypoint the solver picks first; the
unrounded savings and efficiency gain are strictly negative; and the reported
figures are at most 0: whole-number rounding can send small negative figures
to 0 (see the counterexample), so the claimed strict negativity of the
REPORTED figures does not hold in general. -/
theorem claim_C10_amended (s : ℝ × ℝ) (w1 w2 : Bin) (l : List Bin)
    (hl : l.Perm [w1, w2]) (hw : 0 < dBins w1 w2)
    (hs : 0 < dPos s (selectNearest s w1 [w2])) :
    random_distance_code l = dBins w1 w2 ∧
    random_distance_code l < (optimize_route_tsp s [w1, w2]).2 ∧
    savings_calc (optimize_route_tsp s [w1, w2]).2 (random_distance_code l) < 0 ∧
    efficiency_calc (optimize_route_tsp s [w1, w2]).2 (random_distance_code l) < 0 ∧
    pyround0 (savings_calc (optimize_route_tsp s [w1, w2]).2
      (random_distance_code l)) ≤ 0 ∧
    pyround0 (efficiency_calc (optimize_route_tsp s [w1, w2]).2
      (random_distance_code l)) ≤ 0 := by
  have hne : w1 ≠ w2 := by
    intro hcon
    rw [hcon, dBins_self] at hw
    exact lt_irrefl 0 hw
  have hbase : random_distance_code l = dBins w1 w2 := by
    rcases perm_pair_cases hl with h | h <;>
      rw [h, random_distance_code_eq_consecSum]
    · show dBins w1 w2 + consecSum [w2] = dBins w1 w2
      simp [consecSum]
    · show dBins w2 w1 + consecSum [w1] = dBins w1 w2
      rw [dBins_symm]
      simp [consecSum]
  have hod : (optimize_route_tsp s [w1, w2]).2 =
      dPos s (selectNearest s w1 [w2]) + dBins w1 w2 := by
    rw [tsp_pair s w1 w2 hne, selectNearest_pair]
    by_cases hd : dPos s w2 < dPos s w1
    · rw [if_pos hd, if_pos hd]
      show dPos s w2 + (dBins w2 w1 + 0) = dPos s w2 + dBins w1 w2
      rw [dBins_symm w2 w1]
      ring
    · rw [if_neg hd, if_neg hd]
      show dPos s w1 + (dBins w1 w2 + 0) = dPos s w1 + dBins w1 w2
      ring
  have hlt : random_distance_code l < (optimize_route_tsp s [w1, w2]).2 := by
    rw [hbase, hod]
    linarith
  have hrdpos : 0 < random_distance_code l := by
    rw [hbase]
    exact hw
  have hsav : savings_calc (optimize_route_tsp s [w1, w2]).2
      (random_distance_code l) < 0 := by
    unfold savings_calc optimal_fuel_calc
    rw [if_pos hrdpos]
    linarith
  have heff : efficiency_calc (optimize_route_tsp s [w1, w2]).2
      (random_distance_code l) < 0 := by
    unfold efficiency_calc
    rw [if_pos hrdpos]
    have h1 : random_distance_code l - (optimize_route_tsp s [w1, w2]).2 < 0 := by
      linarith
    have h2 := div_neg_of_neg_of_pos h1 hrdpos
    linarith
  exact ⟨hbase, hlt, hsav, heff, pyround0_nonpos _ hsav, pyround0_nonpos _ heff⟩

/-- Witness for the amended claim C10 at concrete inputs: start (0,0),
waypoints at (0,90) and (0,180). -/
theorem claim_C10_amended_witness :
    random_distance_code [bin90, binB] = dBins bin90 binB ∧
    random_distance_code [bin90, binB] < (optimize_route_tsp (0, 0) [bin90, binB]).2 ∧
    savings_calc (optimize_route_tsp (0, 0) [bin90, binB]).2
      (random_distance_code [bin90, binB]) < 0 ∧
    efficiency_calc (optimize_route_tsp (0, 0) [bin90, binB]).2
      (random_distance_code [bin90, binB]) < 0 ∧
    pyround0 (savings_calc (optimize_route_tsp (0, 0) [bin90, binB]).2
      (random_distance_code [bin90, binB])) ≤ 0 ∧
    pyround0 (efficiency_calc (optimize_route_tsp (0, 0) [bin90, binB]).2
      (random_distance_code [bin90, binB])) ≤ 0 :=
  claim_C10_amended (0, 0) bin90 binB [bin90, binB] (List.Perm.refl _)
    (by rw [dBins_bin90_binB]; positivity)
    (by rw [selectNearest_home_90B, dPos_home_bin90]; positivity)
